import Mathlib

/-!
Shallow embedding of `src/keys/drivers/YubiKeyInterfaceUSB.cpp` (KeePassXC
hardware-key challenge-response driver).  The external ykcore USB library is
modelled as an environment: an oracle mapping a device index to an open
attempt, and a per-device exchange oracle for `yk_challenge_response`.
Bytes are `Nat` (values below 256 where it matters), buffers are `List Nat`,
and observable side effects (handle opens/closes, hardware exchanges and the
started/completed notifications) are recorded in an event trace.
-/

set_option autoImplicit false

/-- MAX_KEYS from the anonymous namespace of the source file. -/
def MAX_KEYS : Nat := 4

/-- Error code YK_EUSBERR of the external ykcore library (ykcore_errors.h,
not part of the sources here); the exact value is immaterial, the codes are
distinct tags. -/
def YK_EUSBERR : Nat := 1

/-- Error code YK_ETIMEOUT of the external ykcore library. -/
def YK_ETIMEOUT : Nat := 4

/-- Error code YK_ENOKEY of the external ykcore library: no more attached
devices, the terminal enumeration signal. -/
def YK_ENOKEY : Nat := 5

/-- Error code YK_EWOULDBLOCK of the external ykcore library: the slot
requires a touch and the call was issued non-blocking. -/
def YK_EWOULDBLOCK : Nat := 11

/-- Hardware command code for a slot-1 HMAC challenge (ykdef.h of the
external library). -/
def SLOT_CHAL_HMAC1 : Nat := 0x30

/-- Hardware command code for a slot-2 HMAC challenge (ykdef.h of the
external library). -/
def SLOT_CHAL_HMAC2 : Nat := 0x38

/-- Product id of the last YubiKey NEO family member (ykdef.h); the source
treats every product id at or below it as a legacy device. -/
def NEO_OTP_U2F_CCID_PID : Nat := 0x0116

/-- Vendor id of the OnlyKey family (ykdef.h). -/
def ONLYKEY_VID : Nat := 0x1d50

/-- Vendor id of Yubico (ykdef.h). -/
def YUBICO_VID : Nat := 0x1050

/-- Per-slot configuration-valid bitmask CONFIG1_VALID (ykstatus.h). -/
def CONFIG1_VALID : Nat := 1

/-- Per-slot configuration-valid bitmask CONFIG2_VALID (ykstatus.h). -/
def CONFIG2_VALID : Nat := 2

/-- Tri-state outcome of a challenge, `YubiKey::ChallengeResult`. -/
inductive ChallengeResult where
  | YCR_SUCCESS
  | YCR_ERROR
  | YCR_WOULDBLOCK
  deriving DecidableEq, Repr

/-- Outcome of one `yk_challenge_response` call of the external library:
the returned success flag, the value of the global `yk_errno` afterwards,
and the bytes the device wrote into the response buffer. -/
structure ExchangeOutcome where
  ok : Bool
  errno : Nat
  resp : List Nat
  deriving DecidableEq, Repr

/-- One attached hardware device as observable through the external
library: the serial reported by `yk_get_serial` (0 when that call fails),
vendor/product ids, the touch-level bitmask of the status block, the
firmware major version, and the exchange oracle for
`yk_challenge_response`. -/
structure Device where
  serial : Nat
  vid : Nat
  pid : Nat
  touchLevel : Nat
  versionMajor : Nat
  exchange : Nat → Bool → List Nat → ExchangeOutcome

/-- Result of one `openKey(index)` call: either a device handle or a
failure leaving an error code in `yk_errno`. -/
inductive OpenAttempt where
  | opened (d : Device)
  | failed (errno : Nat)

/-- The world the driver runs against: the open-by-index oracle (the
anonymous-namespace `openKey` helper over `yk_open_key_vid_pid`), the
product-id name table, the one random byte the RNG collaborator yields for
a test challenge, and the detail string `yk_usb_strerror` would produce. -/
structure Env where
  openKey : Nat → OpenAttempt
  pidNames : List (Nat × String)
  rnd : Nat
  usbDetail : String

/-- Observable events of a driver operation, in order: `probe i` is an
`openKey(i)` call, `opened`/`closed` track the handle at index `i`,
`exchanged` is one `yk_challenge_response` call with the command code, the
blocking flag and the payload actually sent, and `started`/`completed` are
the emitted notifications. -/
inductive Event where
  | probe (i : Nat)
  | opened (i : Nat)
  | closed (i : Nat)
  | exchanged (cmd : Nat) (mayBlock : Bool) (payload : List Nat)
  | started
  | completed
  deriving DecidableEq, Repr

/-- The error messages the driver can leave in `m_error`, with the data
each message embeds (`hardwareError` carries the code whose
`yk_strerror` text the message embeds). -/
inductive ErrMsg where
  | notInitialized
  | deviceNotFound (serial : Nat)
  | timedOut
  | usbError (detail : String)
  | hardwareError (errno : Nat)
  deriving DecidableEq, Repr

/-- Command-code selection of `performChallenge`:
`(slot == 1) ? SLOT_CHAL_HMAC1 : SLOT_CHAL_HMAC2`. -/
def ykCmd (slot : Int) : Nat :=
  if slot = 1 then SLOT_CHAL_HMAC1 else SLOT_CHAL_HMAC2

/-- Padding step of `performChallenge`: `padLen = 64 - size`; when
positive, append `padLen` bytes each of value `padLen`. -/
def padChallenge (challenge : List Nat) : List Nat :=
  let padLen : Int := 64 - (challenge.length : Int)
  if 0 < padLen then
    challenge ++ List.replicate padLen.toNat padLen.toNat
  else
    challenge

/-- Everything observable about one `performChallenge` call: the result,
the `m_error` state it leaves (cleared on entry, set at most once), the
response buffer as the caller sees it, the command code, payload and
response capacity passed to the hardware, the full 64-byte transport
buffer after the exchange, and the event trace. -/
structure PCOut where
  result : ChallengeResult
  error : Option ErrMsg
  response : List Nat
  sentCmd : Nat
  sentPayload : List Nat
  sentRespLen : Nat
  buf64 : List Nat
  events : List Event
  deriving DecidableEq, Repr

/-- Embedding of `YubiKeyInterfaceUSB::performChallenge`.  The response
buffer is cleared and resized to 64 zero bytes, the challenge is padded,
the exchange is issued, the buffer is truncated to 20 bytes regardless of
outcome, and the error code is mapped to the tri-state result. -/
def performChallenge (env : Env) (key : Device) (slot : Int) (mayBlock : Bool)
    (challenge : List Nat) : PCOut :=
  let cmd := ykCmd slot
  let padded := padChallenge challenge
  let o := key.exchange cmd mayBlock padded
  let buf := (o.resp ++ List.replicate 64 0).take 64
  let resp := buf.take 20
  let re : ChallengeResult × Option ErrMsg :=
    if o.ok then
      (ChallengeResult.YCR_SUCCESS, none)
    else if o.errno = YK_EWOULDBLOCK then
      (ChallengeResult.YCR_WOULDBLOCK, none)
    else if o.errno ≠ 0 then
      (ChallengeResult.YCR_ERROR,
        some (if o.errno = YK_ETIMEOUT then ErrMsg.timedOut
          else if o.errno = YK_EUSBERR then ErrMsg.usbError env.usbDetail
          else ErrMsg.hardwareError o.errno))
    else
      (ChallengeResult.YCR_SUCCESS, none)
  { result := re.fst
    error := re.snd
    response := resp
    sentCmd := cmd
    sentPayload := padded
    sentRespLen := 64
    buf64 := buf
    events := [Event.exchanged cmd mayBlock padded] }

/-- Embedding of `performTestChallenge`: issue a 1-byte random challenge in
non-blocking mode; Success or WouldBlock means the slot is configured
(return true, writing whether it would block), Error means it is not. -/
def performTestChallenge (env : Env) (key : Device) (slot : Int) :
    Bool × Option Bool × List Event :=
  let pc := performChallenge env key slot false [env.rnd]
  if pc.result = ChallengeResult.YCR_SUCCESS ∨
      pc.result = ChallengeResult.YCR_WOULDBLOCK then
    (true, some (decide (pc.result = ChallengeResult.YCR_WOULDBLOCK)), pc.events)
  else
    (false, none, pc.events)

/-- Loop body of the anonymous-namespace `openKeySerial`, with
`fuel = MAX_KEYS - i` making the `for` loop structural.  Returns the
resolved handle (index and device) and the event trace of the search. -/
def openKeySerialAux (env : Env) (serial : Nat) : Nat → Nat → Option (Nat × Device) × List Event
  | 0, _ => (none, [])
  | fuel + 1, i =>
    match env.openKey i with
    | OpenAttempt.opened d =>
      if serial = 0 ∨ d.serial = serial then
        (some (i, d), [Event.probe i, Event.opened i])
      else
        let r := openKeySerialAux env serial fuel (i + 1)
        (r.fst, Event.probe i :: Event.opened i :: Event.closed i :: r.snd)
    | OpenAttempt.failed e =>
      if e = YK_ENOKEY then
        (none, [Event.probe i])
      else
        let r := openKeySerialAux env serial fuel (i + 1)
        (r.fst, Event.probe i :: r.snd)

/-- Embedding of `openKeySerial(serial)`: scan indices 0 to MAX_KEYS - 1. -/
def openKeySerial (env : Env) (serial : Nat) : Option (Nat × Device) × List Event :=
  openKeySerialAux env serial MAX_KEYS 0

/-- Everything observable about one public `challenge` call: the result,
the `m_error` state left behind, the caller-provided response buffer after
the call, and the event trace. -/
structure ChalOut where
  result : ChallengeResult
  error : Option ErrMsg
  response : List Nat
  events : List Event
  deriving DecidableEq, Repr

/-- Embedding of the public `YubiKeyInterfaceUSB::challenge`.
`initialized` is the `m_initialized` member; `prevResponse` is the
caller-provided response buffer on entry (the early-error paths never touch
it); the prior `m_error` content is irrelevant because the call clears it
first. -/
def challenge (env : Env) (initialized : Bool) (slot : Nat × Int)
    (chal : List Nat) (prevResponse : List Nat) (_prevError : Option ErrMsg) : ChalOut :=
  if initialized then
    match openKeySerial env slot.fst with
    | (none, evs) =>
      { result := ChallengeResult.YCR_ERROR
        error := some (ErrMsg.deviceNotFound slot.fst)
        response := prevResponse
        events := evs }
    | (some (i, d), evs) =>
      let pc := performChallenge env d slot.snd true chal
      { result := pc.result
        error := pc.error
        response := pc.response
        events := evs ++ [Event.started] ++ pc.events
          ++ [Event.closed i, Event.completed] }
  else
    { result := ChallengeResult.YCR_ERROR
      error := some ErrMsg.notInitialized
      response := prevResponse
      events := [] }

/-- Prefix test on character lists, modelling the QString substring
machinery on the code-point level. -/
def isPrefList : List Char → List Char → Bool
  | [], _ => true
  | _ :: _, [] => false
  | a :: as, b :: bs => a = b && isPrefList as bs

/-- Substring occurrence test, modelling `QString::contains`. -/
def containsSub (pat : List Char) : List Char → Bool
  | [] => pat.isEmpty
  | s@(_ :: rest) => isPrefList pat s || containsSub pat rest

/-- Replace every occurrence of `pat` (nonempty) by `repl`, modelling
`QString::replace`; `fuel` bounds the scan (the callers pass the string
length). -/
def replaceSubAux (pat repl : List Char) : Nat → List Char → List Char
  | 0, s => s
  | _ + 1, [] => []
  | fuel + 1, s@(c :: rest) =>
    if !pat.isEmpty && isPrefList pat s then
      repl ++ replaceSubAux pat repl fuel (s.drop pat.length)
    else
      c :: replaceSubAux pat repl fuel rest

/-- Modelled from the spec: the product-id → name table `m_pid_names` and
the name resolution of `findValidKeys` live partly in the class header,
which is not among the sources here; the spec describes a product-id
lookup with an "Unknown" default, an OnlyKey special case, and substitution
of a version placeholder by the firmware major version. -/
def deviceName (env : Env) (d : Device) : String :=
  let base := (env.pidNames.lookup d.pid).getD "Unknown"
  let base := if d.vid = ONLYKEY_VID then "OnlyKey %ver" else base
  if containsSub "%ver".toList base.toList then
    String.mk (replaceSubAux "%ver".toList (toString d.versionMajor).toList
      base.toList.length base.toList)
  else
    base

/-- Display label of a legacy (NEO-or-below) slot:
`tr("%1 [%2] - Slot %3").arg(name, serial, slot)`. -/
def legacyDisplay (env : Env) (d : Device) (slot : Int) : String :=
  deviceName env d ++ " [" ++ toString d.serial ++ "] - Slot " ++ toString slot

/-- Display label of a probed slot:
`tr("%1 [%2] - Slot %3, %4")` with Press or Passive by `wouldBlock`. -/
def probedDisplay (env : Env) (d : Device) (slot : Int) (wouldBlock : Bool) : String :=
  deviceName env d ++ " [" ++ toString d.serial ++ "] - Slot " ++ toString slot
    ++ ", " ++ (if wouldBlock then "Press" else "Passive")

/-- Configuration-valid bitmask chosen for a slot:
`slot == 1 ? CONFIG1_VALID : CONFIG2_VALID`. -/
def slotConfig (slot : Int) : Nat :=
  if slot = 1 then CONFIG1_VALID else CONFIG2_VALID

/-- Per-slot body of the enumeration loop of `findValidKeys`: skip an
unconfigured slot; list a legacy slot unconditionally with the legacy
label; otherwise probe and list only on probe success, with the
Press/Passive annotation from the probe. -/
def slotListing (env : Env) (d : Device) (slot : Int) :
    Option ((Nat × Int) × String) × List Event :=
  if d.touchLevel &&& slotConfig slot = 0 then
    (none, [])
  else if d.pid ≤ NEO_OTP_U2F_CCID_PID then
    (some ((d.serial, slot), legacyDisplay env d slot), [])
  else
    match performTestChallenge env d slot with
    | (true, some wb, evs) => (some ((d.serial, slot), probedDisplay env d slot wb), evs)
    | (true, none, evs) => (none, evs)
    | (false, _, evs) => (none, evs)

/-- Both slot iterations of the enumeration loop for one opened device. -/
def deviceSlots (env : Env) (d : Device) :
    List ((Nat × Int) × String) × List Event :=
  let s1 := slotListing env d 1
  let s2 := slotListing env d 2
  (s1.fst.toList ++ s2.fst.toList, s1.snd ++ s2.snd)

/-- `QHash::insert` on the association-list model of `YubiKey::KeyMap`:
replace the value when the key is present, append otherwise. -/
def keyMapInsert (m : List ((Nat × Int) × String)) (k : Nat × Int) (v : String) :
    List ((Nat × Int) × String) :=
  if m.any (fun e => decide (e.fst = k)) then
    m.map (fun e => if e.fst = k then (k, v) else e)
  else
    m ++ [(k, v)]

/-- Fold of `keyMapInsert` over the entries one device contributes. -/
def keyMapInsertAll (m : List ((Nat × Int) × String))
    (l : List ((Nat × Int) × String)) : List ((Nat × Int) × String) :=
  l.foldl (fun acc e => keyMapInsert acc e.fst e.snd) m

/-- Everything observable about one `findValidKeys` call: the inventory,
the event trace, and the `m_error` state left behind (the call clears it
and never sets it again). -/
structure FVKOut where
  keyMap : List ((Nat × Int) × String)
  events : List Event
  error : Option ErrMsg
  deriving DecidableEq, Repr

/-- Device loop of `findValidKeys`, with `fuel = MAX_KEYS - i`:
stop on YK_ENOKEY, log and continue past other open failures, skip a
device whose serial reads 0, otherwise list its slots and close it. -/
def findValidKeysAux (env : Env) : Nat → Nat → List ((Nat × Int) × String) →
    List ((Nat × Int) × String) × List Event
  | 0, _, acc => (acc, [])
  | fuel + 1, i, acc =>
    match env.openKey i with
    | OpenAttempt.opened d =>
      if d.serial = 0 then
        let r := findValidKeysAux env fuel (i + 1) acc
        (r.fst, Event.probe i :: Event.opened i :: Event.closed i :: r.snd)
      else
        let sl := deviceSlots env d
        let r := findValidKeysAux env fuel (i + 1) (keyMapInsertAll acc sl.fst)
        (r.fst, Event.probe i :: Event.opened i :: (sl.snd
          ++ [Event.closed i] ++ r.snd))
    | OpenAttempt.failed e =>
      if e = YK_ENOKEY then
        (acc, [Event.probe i])
      else
        let r := findValidKeysAux env fuel (i + 1) acc
        (r.fst, Event.probe i :: r.snd)

/-- Embedding of `YubiKeyInterfaceUSB::findValidKeys`: clear the error
state, return an empty inventory at once when the USB context failed to
initialize, otherwise scan up to MAX_KEYS devices. -/
def findValidKeys (env : Env) (initialized : Bool) (_prevError : Option ErrMsg) : FVKOut :=
  if initialized then
    let r := findValidKeysAux env MAX_KEYS 0 []
    { keyMap := r.fst, events := r.snd, error := none }
  else
    { keyMap := [], events := [], error := none }

/-- Environment with exactly one attached device `d` at index 0 and the
no-more-devices signal everywhere after it. -/
def oneKeyEnv (d : Device) (pidNames : List (Nat × String)) (rnd : Nat)
    (usbDetail : String) : Env :=
  { openKey := fun i => if i = 0 then OpenAttempt.opened d else OpenAttempt.failed YK_ENOKEY
    pidNames := pidNames
    rnd := rnd
    usbDetail := usbDetail }

/-- Concrete device used by witnesses: a YK4-family key whose slots answer
every exchange successfully with a buffer of 7-bytes. -/
def demoDevice : Device :=
  { serial := 12345678
    vid := YUBICO_VID
    pid := 0x0407
    touchLevel := 3
    versionMajor := 4
    exchange := fun _ _ _ => { ok := true, errno := 0, resp := List.replicate 64 7 } }

/-- Concrete environment used by witnesses: `demoDevice` attached at
index 0. -/
def demoEnv : Env := oneKeyEnv demoDevice [] 0x55 "usb detail"

/-- Padding characterization shared by the executor claims: for inputs of
length at most 64, `padChallenge` appends `64 - n` bytes of value
`64 - n`. -/
theorem padChallenge_spec (chal : List Nat) (h : chal.length ≤ 64) :
    padChallenge chal = chal ++ List.replicate (64 - chal.length) (64 - chal.length) := by
  simp only [padChallenge]
  by_cases hlt : chal.length < 64
  · rw [if_pos (by omega : (0 : Int) < 64 - (chal.length : Int))]
    have ht : ((64 : Int) - (chal.length : Int)).toNat = 64 - chal.length := by omega
    rw [ht]
  · have h64 : chal.length = 64 := by omega
    rw [if_neg (by omega), h64]
    simp

/-- C2: for every input challenge of length n ≤ 64, the payload sent to the
hardware is exactly 64 bytes, the original bytes followed by 64 - n bytes
each of value 64 - n, and a 64-byte input is sent unchanged. -/
theorem performChallenge_pkcs7_padding (env : Env) (key : Device) (slot : Int)
    (mayBlock : Bool) (chal : List Nat) (h : chal.length ≤ 64) :
    (performChallenge env key slot mayBlock chal).sentPayload
      = chal ++ List.replicate (64 - chal.length) (64 - chal.length) ∧
    (performChallenge env key slot mayBlock chal).sentPayload.length = 64 ∧
    (chal.length = 64 → (performChallenge env key slot mayBlock chal).sentPayload = chal) := by
  have hs : (performChallenge env key slot mayBlock chal).sentPayload = padChallenge chal := rfl
  have hp := padChallenge_spec chal h
  refine ⟨by rw [hs, hp], ?_, ?_⟩
  · rw [hs, hp]
    simp only [List.length_append, List.length_replicate]
    omega
  · intro h64
    rw [hs, hp, h64]
    simp

/-- Witness for C2 at the concrete input [1, 2, 3]. -/
theorem performChallenge_pkcs7_padding_witness :
    ([1, 2, 3] : List Nat).length ≤ 64 ∧
    (performChallenge demoEnv demoDevice 1 true [1, 2, 3]).sentPayload
      = [1, 2, 3] ++ List.replicate 61 61 := by
  have h := performChallenge_pkcs7_padding demoEnv demoDevice 1 true [1, 2, 3] (by decide)
  exact ⟨by decide, h.1⟩

/-- Transport-buffer length fact shared by several claims: the 64-byte
buffer `performChallenge` hands to the hardware. -/
theorem pc_buf64_length (env : Env) (key : Device) (slot : Int)
    (mayBlock : Bool) (chal : List Nat) :
    (performChallenge env key slot mayBlock chal).buf64.length = 64 := by
  have hb : (performChallenge env key slot mayBlock chal).buf64
      = ((key.exchange (ykCmd slot) mayBlock (padChallenge chal)).resp
          ++ List.replicate 64 0).take 64 := rfl
  rw [hb]
  simp only [List.length_take, List.length_append, List.length_replicate]
  omega

/-- Response-length fact shared by several claims: the executor always
returns a 20-byte response. -/
theorem pc_response_length (env : Env) (key : Device) (slot : Int)
    (mayBlock : Bool) (chal : List Nat) :
    (performChallenge env key slot mayBlock chal).response.length = 20 := by
  have hr : (performChallenge env key slot mayBlock chal).response
      = (performChallenge env key slot mayBlock chal).buf64.take 20 := rfl
  rw [hr]
  simp only [List.length_take, pc_buf64_length]
  decide

/-- C3: whatever the exchange outcome, the response buffer the executor
returns holds exactly 20 bytes, while the transport buffer handed to the
hardware is 64 bytes with capacity 64. -/
theorem performChallenge_response_length (env : Env) (key : Device) (slot : Int)
    (mayBlock : Bool) (chal : List Nat) :
    (performChallenge env key slot mayBlock chal).response.length = 20 ∧
    (performChallenge env key slot mayBlock chal).buf64.length = 64 ∧
    (performChallenge env key slot mayBlock chal).sentRespLen = 64 :=
  ⟨pc_response_length env key slot mayBlock chal,
   pc_buf64_length env key slot mayBlock chal, rfl⟩

/-- C9: any slot index other than 1, including indices outside the valid
set such as 0 or 3, selects the slot-2 command code, and the executor
behaves exactly as it does for slot 2, rejecting nothing. -/
theorem performChallenge_slot_fallback (env : Env) (key : Device) (slot : Int)
    (mayBlock : Bool) (chal : List Nat) (h : slot ≠ 1) :
    (performChallenge env key slot mayBlock chal).sentCmd = SLOT_CHAL_HMAC2 ∧
    performChallenge env key slot mayBlock chal = performChallenge env key 2 mayBlock chal := by
  have hc : ykCmd slot = SLOT_CHAL_HMAC2 := if_neg h
  have hc2 : ykCmd 2 = SLOT_CHAL_HMAC2 := if_neg (by decide)
  constructor
  · show ykCmd slot = SLOT_CHAL_HMAC2
    exact hc
  · simp only [performChallenge, hc, hc2]

/-- Witness for C9 at the out-of-range slot index 3. -/
theorem performChallenge_slot_fallback_witness :
    (performChallenge demoEnv demoDevice 3 true [1, 2, 3]).sentCmd = SLOT_CHAL_HMAC2 ∧
    performChallenge demoEnv demoDevice 3 true [1, 2, 3]
      = performChallenge demoEnv demoDevice 2 true [1, 2, 3] :=
  performChallenge_slot_fallback demoEnv demoDevice 3 true [1, 2, 3] (by decide)

/-- C7: under the library contract that the success flag is exactly the
absence of an error code, the executor maps a would-block code to
WouldBlock, a timeout code to Error with the timeout message, a USB error
code to Error with the transport-detail message, any other nonzero code to
Error with the generic hardware message carrying the code, and a zero code
to Success. -/
theorem performChallenge_errno_map (env : Env) (key : Device) (slot : Int)
    (mayBlock : Bool) (chal : List Nat) (o : ExchangeOutcome)
    (ho : key.exchange (ykCmd slot) mayBlock (padChallenge chal) = o)
    (hc : o.ok = decide (o.errno = 0)) :
    (o.errno = YK_EWOULDBLOCK →
      (performChallenge env key slot mayBlock chal).result = ChallengeResult.YCR_WOULDBLOCK ∧
      (performChallenge env key slot mayBlock chal).error = none) ∧
    (o.errno = YK_ETIMEOUT →
      (performChallenge env key slot mayBlock chal).result = ChallengeResult.YCR_ERROR ∧
      (performChallenge env key slot mayBlock chal).error = some ErrMsg.timedOut) ∧
    (o.errno = YK_EUSBERR →
      (performChallenge env key slot mayBlock chal).result = ChallengeResult.YCR_ERROR ∧
      (performChallenge env key slot mayBlock chal).error = some (ErrMsg.usbError env.usbDetail)) ∧
    (o.errno ≠ 0 → o.errno ≠ YK_EWOULDBLOCK → o.errno ≠ YK_ETIMEOUT → o.errno ≠ YK_EUSBERR →
      (performChallenge env key slot mayBlock chal).result = ChallengeResult.YCR_ERROR ∧
      (performChallenge env key slot mayBlock chal).error = some (ErrMsg.hardwareError o.errno)) ∧
    (o.errno = 0 →
      (performChallenge env key slot mayBlock chal).result = ChallengeResult.YCR_SUCCESS ∧
      (performChallenge env key slot mayBlock chal).error = none) := by
  refine ⟨?_, ?_, ?_, ?_, ?_⟩
  · intro he
    have hok : o.ok = false := by rw [hc, he]; rfl
    constructor <;>
      simp [performChallenge, ho, hok, he, YK_EWOULDBLOCK]
  · intro he
    have hok : o.ok = false := by rw [hc, he]; rfl
    constructor <;>
      simp [performChallenge, ho, hok, he, YK_EWOULDBLOCK, YK_ETIMEOUT]
  · intro he
    have hok : o.ok = false := by rw [hc, he]; rfl
    constructor <;>
      simp [performChallenge, ho, hok, he, YK_EWOULDBLOCK, YK_ETIMEOUT, YK_EUSBERR]
  · intro h0 hwb ht hu
    have hok : o.ok = false := by rw [hc]; simp [h0]
    simp only [YK_EWOULDBLOCK] at hwb
    simp only [YK_ETIMEOUT] at ht
    simp only [YK_EUSBERR] at hu
    constructor <;>
      simp [performChallenge, ho, hok, h0, hwb, ht, hu, YK_EWOULDBLOCK, YK_ETIMEOUT, YK_EUSBERR]
  · intro he
    have hok : o.ok = true := by rw [hc, he]; rfl
    constructor <;>
      simp [performChallenge, ho, hok, he]

/-- Concrete device whose exchanges all fail with the timeout code. -/
def timeoutDevice : Device :=
  { serial := 4242
    vid := YUBICO_VID
    pid := 0x0407
    touchLevel := 3
    versionMajor := 5
    exchange := fun _ _ _ => { ok := false, errno := YK_ETIMEOUT, resp := [] } }

/-- Concrete environment with `timeoutDevice` attached at index 0. -/
def timeoutEnv : Env := oneKeyEnv timeoutDevice [] 1 "usb detail"

/-- Witness for C7 at a concrete timeout outcome. -/
theorem performChallenge_errno_map_witness :
    (performChallenge timeoutEnv timeoutDevice 1 true [7]).result = ChallengeResult.YCR_ERROR ∧
    (performChallenge timeoutEnv timeoutDevice 1 true [7]).error = some ErrMsg.timedOut :=
  (performChallenge_errno_map timeoutEnv timeoutDevice 1 true [7]
    { ok := false, errno := YK_ETIMEOUT, resp := [] } rfl rfl).2.1 rfl

/-- C1: the public challenge operation clears the error state whatever it
held before; when the USB context is uninitialized it fails at once with
the not-initialized message and no hardware activity; when no device with
the serial opens it fails with the message naming that serial; otherwise it
delegates to the executor with mayBlock = true and its trace shows the
started notification, the exchange, the close of the resolved handle and
the completed notification, in that order, on every outcome. -/
theorem challenge_contract (env : Env) (slot : Nat × Int) (chal prevResp : List Nat)
    (prevErr : Option ErrMsg) :
    (challenge env false slot chal prevResp prevErr
      = { result := ChallengeResult.YCR_ERROR
          error := some ErrMsg.notInitialized
          response := prevResp
          events := [] }) ∧
    (∀ evs, openKeySerial env slot.fst = (none, evs) →
      challenge env true slot chal prevResp prevErr
        = { result := ChallengeResult.YCR_ERROR
            error := some (ErrMsg.deviceNotFound slot.fst)
            response := prevResp
            events := evs }) ∧
    (∀ i d evs, openKeySerial env slot.fst = (some (i, d), evs) →
      challenge env true slot chal prevResp prevErr
        = { result := (performChallenge env d slot.snd true chal).result
            error := (performChallenge env d slot.snd true chal).error
            response := (performChallenge env d slot.snd true chal).response
            events := evs ++ [Event.started,
              Event.exchanged (ykCmd slot.snd) true (padChallenge chal),
              Event.closed i, Event.completed] }) := by
  refine ⟨rfl, ?_, ?_⟩
  · intro evs h
    simp [challenge, h]
  · intro i d evs h
    simp [challenge, h]
    rfl

/-- Concrete environment with no attached device: every open attempt ends
enumeration with YK_ENOKEY. -/
def emptyEnv : Env :=
  { openKey := fun _ => OpenAttempt.failed YK_ENOKEY
    pidNames := []
    rnd := 0
    usbDetail := "" }

/-- Witness for C1: the three paths of the public challenge operation at
concrete inputs. -/
theorem challenge_contract_witness :
    (challenge demoEnv false (12345678, 1) [1] [9] (some ErrMsg.timedOut)
      = { result := ChallengeResult.YCR_ERROR
          error := some ErrMsg.notInitialized
          response := [9]
          events := [] }) ∧
    (challenge emptyEnv true (12345678, 1) [1] [9] (some ErrMsg.timedOut)
      = { result := ChallengeResult.YCR_ERROR
          error := some (ErrMsg.deviceNotFound 12345678)
          response := [9]
          events := [Event.probe 0] }) ∧
    (challenge demoEnv true (12345678, 1) [1] [9] (some ErrMsg.timedOut)
      = { result := (performChallenge demoEnv demoDevice 1 true [1]).result
          error := (performChallenge demoEnv demoDevice 1 true [1]).error
          response := (performChallenge demoEnv demoDevice 1 true [1]).response
          events := [Event.probe 0, Event.opened 0] ++ [Event.started,
            Event.exchanged (ykCmd 1) true (padChallenge [1]),
            Event.closed 0, Event.completed] }) := by
  have h := challenge_contract demoEnv (12345678, 1) [1] [9] (some ErrMsg.timedOut)
  have h2 := challenge_contract emptyEnv (12345678, 1) [1] [9] (some ErrMsg.timedOut)
  exact ⟨h.1, h2.2.1 [Event.probe 0] rfl,
    h.2.2 0 demoDevice [Event.probe 0, Event.opened 0] rfl⟩

/-- C10: when the public challenge operation fails before reaching the
executor (uninitialized context, or no device with the serial), the
caller-provided response buffer is returned untouched; when the executor
is reached, the buffer is overwritten to exactly 20 bytes on every
outcome. -/
theorem challenge_response_buffer (env : Env) (slot : Nat × Int)
    (chal prevResp : List Nat) (prevErr : Option ErrMsg) :
    ((challenge env false slot chal prevResp prevErr).response = prevResp) ∧
    (∀ evs, openKeySerial env slot.fst = (none, evs) →
      (challenge env true slot chal prevResp prevErr).response = prevResp) ∧
    (∀ i d evs, openKeySerial env slot.fst = (some (i, d), evs) →
      (challenge env true slot chal prevResp prevErr).response.length = 20) := by
  refine ⟨rfl, ?_, ?_⟩
  · intro evs h
    simp [challenge, h]
  · intro i d evs h
    simp [challenge, h]
    exact pc_response_length env d slot.snd true chal

/-- Witness for C10: untouched buffer on both early-failure paths and a
20-byte buffer on the executor path, at concrete inputs. -/
theorem challenge_response_buffer_witness :
    ((challenge demoEnv false (12345678, 1) [1] [9, 9, 9] none).response = [9, 9, 9]) ∧
    ((challenge emptyEnv true (12345678, 1) [1] [9, 9, 9] none).response = [9, 9, 9]) ∧
    ((challenge demoEnv true (12345678, 1) [1] [9, 9, 9] none).response.length = 20) := by
  have h := challenge_response_buffer demoEnv (12345678, 1) [1] [9, 9, 9] none
  have h2 := challenge_response_buffer emptyEnv (12345678, 1) [1] [9, 9, 9] none
  exact ⟨h.1, h2.2.1 [Event.probe 0] rfl,
    h.2.2 0 demoDevice [Event.probe 0, Event.opened 0] rfl⟩

/-- C8: with the USB context uninitialized, findValidKeys clears the prior
error state and returns an empty inventory with no hardware activity at
all, whatever the environment holds. -/
theorem findValidKeys_uninitialized (env : Env) (prevErr : Option ErrMsg) :
    findValidKeys env false prevErr
      = { keyMap := [], events := [], error := none } := rfl

/-- An open attempt the `openKeySerial` loop passes over: either a device
that opened but does not satisfy the serial test, or an open failure whose
code is not the terminal YK_ENOKEY. -/
def attemptSkipped (a : OpenAttempt) (serial : Nat) : Prop :=
  match a with
  | OpenAttempt.opened d => ¬(serial = 0 ∨ d.serial = serial)
  | OpenAttempt.failed e => e ≠ YK_ENOKEY

/-- Loop lemma: if the attempts at offsets below k are all passed over and
the attempt at offset k opens a matching device, the loop returns that
device and its trace closes every non-matching handle it opened. -/
theorem openKeySerialAux_firstMatch (env : Env) (serial : Nat) :
    ∀ (fuel i k : Nat) (d : Device), k < fuel →
      env.openKey (i + k) = OpenAttempt.opened d →
      (serial = 0 ∨ d.serial = serial) →
      (∀ j, j < k → attemptSkipped (env.openKey (i + j)) serial) →
      (openKeySerialAux env serial fuel i).fst = some (i + k, d) ∧
      (∀ j dj, j < k → env.openKey (i + j) = OpenAttempt.opened dj →
        Event.closed (i + j) ∈ (openKeySerialAux env serial fuel i).snd) := by
  intro fuel
  induction fuel with
  | zero =>
    intro i k d hk
    exact absurd hk (Nat.not_lt_zero k)
  | succ fuel ih =>
    intro i k d hk hopen hmatch hskip
    cases k with
    | zero =>
      rw [Nat.add_zero] at hopen
      refine ⟨?_, ?_⟩
      · rw [Nat.add_zero]
        simp [openKeySerialAux, hopen, hmatch]
      · intro j dj hj
        exact absurd hj (Nat.not_lt_zero j)
    | succ k' =>
      have h0 := hskip 0 (Nat.succ_pos k')
      rw [Nat.add_zero] at h0
      have hrec := ih (i + 1) k' d (by omega)
        (by rw [show i + 1 + k' = i + (k' + 1) by omega]; exact hopen) hmatch
        (fun j hj => by
          rw [show i + 1 + j = i + (j + 1) by omega]
          exact hskip (j + 1) (by omega))
      cases ha : env.openKey i with
      | opened d0 =>
        rw [ha] at h0
        simp only [attemptSkipped] at h0
        refine ⟨?_, ?_⟩
        · simp only [openKeySerialAux, ha, if_neg h0]
          rw [show i + (k' + 1) = i + 1 + k' by omega]
          exact hrec.1
        · intro j dj hj hdj
          simp only [openKeySerialAux, ha, if_neg h0]
          cases j with
          | zero =>
            rw [Nat.add_zero]
            simp
          | succ j' =>
            have := hrec.2 j' dj (by omega)
              (by rw [show i + 1 + j' = i + (j' + 1) by omega]; exact hdj)
            rw [show i + (j' + 1) = i + 1 + j' by omega]
            simp only [List.mem_cons]
            exact Or.inr (Or.inr (Or.inr this))
      | failed e =>
        rw [ha] at h0
        simp only [attemptSkipped] at h0
        refine ⟨?_, ?_⟩
        · simp only [openKeySerialAux, ha, if_neg h0]
          rw [show i + (k' + 1) = i + 1 + k' by omega]
          exact hrec.1
        · intro j dj hj hdj
          simp only [openKeySerialAux, ha, if_neg h0]
          cases j with
          | zero =>
            rw [Nat.add_zero] at hdj
            rw [ha] at hdj
            exact absurd hdj (by simp)
          | succ j' =>
            have := hrec.2 j' dj (by omega)
              (by rw [show i + 1 + j' = i + (j' + 1) by omega]; exact hdj)
            rw [show i + (j' + 1) = i + 1 + j' by omega]
            simp only [List.mem_cons]
            exact Or.inr this

/-- Loop lemma: if every attempt within the remaining fuel is passed over,
the loop resolves no device. -/
theorem openKeySerialAux_none (env : Env) (serial : Nat) :
    ∀ (fuel i : Nat),
      (∀ j, j < fuel → attemptSkipped (env.openKey (i + j)) serial) →
      (openKeySerialAux env serial fuel i).fst = none := by
  intro fuel
  induction fuel with
  | zero =>
    intro i _
    rfl
  | succ fuel ih =>
    intro i hskip
    have h0 := hskip 0 (Nat.succ_pos fuel)
    rw [Nat.add_zero] at h0
    have hrec := ih (i + 1) (fun j hj => by
      rw [show i + 1 + j = i + (j + 1) by omega]
      exact hskip (j + 1) (by omega))
    cases ha : env.openKey i with
    | opened d0 =>
      rw [ha] at h0
      simp only [attemptSkipped] at h0
      simp only [openKeySerialAux, ha, if_neg h0]
      exact hrec
    | failed e =>
      rw [ha] at h0
      simp only [attemptSkipped] at h0
      simp only [openKeySerialAux, ha, if_neg h0]
      exact hrec

/-- Loop lemma: if the attempts below offset k are passed over and the
attempt at offset k fails with YK_ENOKEY, the loop resolves no device and
never probes an index beyond i + k. -/
theorem openKeySerialAux_stop (env : Env) (serial : Nat) :
    ∀ (fuel i k : Nat), k < fuel →
      env.openKey (i + k) = OpenAttempt.failed YK_ENOKEY →
      (∀ j, j < k → attemptSkipped (env.openKey (i + j)) serial) →
      (openKeySerialAux env serial fuel i).fst = none ∧
      (∀ m, Event.probe m ∈ (openKeySerialAux env serial fuel i).snd → m ≤ i + k) := by
  intro fuel
  induction fuel with
  | zero =>
    intro i k hk
    exact absurd hk (Nat.not_lt_zero k)
  | succ fuel ih =>
    intro i k hk hstop hskip
    cases k with
    | zero =>
      rw [Nat.add_zero] at hstop
      refine ⟨?_, ?_⟩
      · simp [openKeySerialAux, hstop, YK_ENOKEY]
      · intro m hm
        simp [openKeySerialAux, hstop] at hm
        omega
    | succ k' =>
      have h0 := hskip 0 (Nat.succ_pos k')
      rw [Nat.add_zero] at h0
      have hrec := ih (i + 1) k' (by omega)
        (by rw [show i + 1 + k' = i + (k' + 1) by omega]; exact hstop)
        (fun j hj => by
          rw [show i + 1 + j = i + (j + 1) by omega]
          exact hskip (j + 1) (by omega))
      cases ha : env.openKey i with
      | opened d0 =>
        rw [ha] at h0
        simp only [attemptSkipped] at h0
        refine ⟨?_, ?_⟩
        · simp only [openKeySerialAux, ha, if_neg h0]
          exact hrec.1
        · intro m hm
          simp only [openKeySerialAux, ha, if_neg h0, List.mem_cons] at hm
          rcases hm with h | h | h | h
          · cases h; omega
          · exact absurd h (by simp)
          · exact absurd h (by simp)
          · have := hrec.2 m h
            omega
      | failed e =>
        rw [ha] at h0
        simp only [attemptSkipped] at h0
        refine ⟨?_, ?_⟩
        · simp only [openKeySerialAux, ha, if_neg h0]
          exact hrec.1
        · intro m hm
          simp only [openKeySerialAux, ha, if_neg h0, List.mem_cons] at hm
          rcases hm with h | h
          · cases h; omega
          · have := hrec.2 m h
            omega

/-- C4: openKeySerial scans indices 0 to MAX_KEYS - 1; the first opened
device passing the serial test (any device for the sentinel serial 0, the
matching serial otherwise) is returned, with every earlier non-matching
handle closed in the trace; when every attempt is passed over it returns
none; and a YK_ENOKEY failure ends the scan with no probe beyond it. -/
theorem openKeySerial_spec (env : Env) (serial : Nat) :
    (∀ k d, k < MAX_KEYS → env.openKey k = OpenAttempt.opened d →
      (serial = 0 ∨ d.serial = serial) →
      (∀ j, j < k → attemptSkipped (env.openKey j) serial) →
      (openKeySerial env serial).fst = some (k, d) ∧
      (∀ j dj, j < k → env.openKey j = OpenAttempt.opened dj →
        Event.closed j ∈ (openKeySerial env serial).snd)) ∧
    ((∀ j, j < MAX_KEYS → attemptSkipped (env.openKey j) serial) →
      (openKeySerial env serial).fst = none) ∧
    (∀ k, k < MAX_KEYS → env.openKey k = OpenAttempt.failed YK_ENOKEY →
      (∀ j, j < k → attemptSkipped (env.openKey j) serial) →
      (openKeySerial env serial).fst = none ∧
      (∀ m, Event.probe m ∈ (openKeySerial env serial).snd → m ≤ k)) := by
  refine ⟨?_, ?_, ?_⟩
  · intro k d hk hopen hmatch hskip
    have h := openKeySerialAux_firstMatch env serial MAX_KEYS 0 k d hk
      (by rw [Nat.zero_add]; exact hopen) hmatch
      (fun j hj => by rw [Nat.zero_add]; exact hskip j hj)
    refine ⟨?_, ?_⟩
    · have := h.1
      rwa [Nat.zero_add] at this
    · intro j dj hj hdj
      have := h.2 j dj hj (by rw [Nat.zero_add]; exact hdj)
      rwa [Nat.zero_add] at this
  · intro hskip
    exact openKeySerialAux_none env serial MAX_KEYS 0
      (fun j hj => by rw [Nat.zero_add]; exact hskip j hj)
  · intro k hk hstop hskip
    have h := openKeySerialAux_stop env serial MAX_KEYS 0 k hk
      (by rw [Nat.zero_add]; exact hstop)
      (fun j hj => by rw [Nat.zero_add]; exact hskip j hj)
    refine ⟨h.1, ?_⟩
    intro m hm
    have := h.2 m hm
    omega

/-- Concrete device with serial 7 for the scan witnesses. -/
def devA : Device :=
  { serial := 7, vid := YUBICO_VID, pid := 0x0401, touchLevel := 1,
    versionMajor := 4, exchange := fun _ _ _ => { ok := true, errno := 0, resp := [] } }

/-- Concrete device with serial 9 for the scan witnesses. -/
def devB : Device :=
  { serial := 9, vid := YUBICO_VID, pid := 0x0401, touchLevel := 1,
    versionMajor := 4, exchange := fun _ _ _ => { ok := true, errno := 0, resp := [] } }

/-- Concrete environment: devices with serials 7 and 9 at indices 0 and 1,
no more devices afterwards. -/
def scanEnv : Env :=
  { openKey := fun i =>
      if i = 0 then OpenAttempt.opened devA
      else if i = 1 then OpenAttempt.opened devB
      else OpenAttempt.failed YK_ENOKEY
    pidNames := []
    rnd := 0
    usbDetail := "" }

/-- Concrete environment like `scanEnv` but whose later open attempts fail
with a USB error rather than the terminal no-key signal. -/
def scanEnvNoStop : Env :=
  { openKey := fun i =>
      if i = 0 then OpenAttempt.opened devA
      else if i = 1 then OpenAttempt.opened devB
      else OpenAttempt.failed YK_EUSBERR
    pidNames := []
    rnd := 0
    usbDetail := "" }

/-- Witness for C4: serial lookup of 9 lands on index 1 closing index 0,
the sentinel serial 0 returns the first device, a scan where nothing
matches returns none, and the no-key signal stops the scan. -/
theorem openKeySerial_spec_witness :
    ((openKeySerial scanEnv 9).fst = some (1, devB) ∧
      Event.closed 0 ∈ (openKeySerial scanEnv 9).snd) ∧
    (openKeySerial scanEnv 0).fst = some (0, devA) ∧
    (openKeySerial scanEnvNoStop 5).fst = none ∧
    (openKeySerial scanEnv 5).fst = none := by
  have h9 := openKeySerial_spec scanEnv 9
  have h0 := openKeySerial_spec scanEnv 0
  have hn := openKeySerial_spec scanEnvNoStop 5
  have hs := openKeySerial_spec scanEnv 5
  refine ⟨?_, ?_, ?_, ?_⟩
  · have h := h9.1 1 devB (by decide) rfl (Or.inr rfl)
      (fun j hj => by
        interval_cases j
        simp [scanEnv, devA, attemptSkipped])
    exact ⟨h.1, h.2 0 devA (by decide) rfl⟩
  · exact (h0.1 0 devA (by decide) rfl (Or.inl rfl)
      (fun j hj => absurd hj (by omega))).1
  · exact hn.2.1 (fun j hj => by
      have hj4 : j < 4 := hj
      interval_cases j <;>
        simp [scanEnvNoStop, devA, devB, attemptSkipped, YK_EUSBERR, YK_ENOKEY])
  · exact (hs.2.2 2 (by decide) rfl (fun j hj => by
      interval_cases j <;>
        simp [scanEnv, devA, devB, attemptSkipped])).1

/-- Concrete legacy device (YubiKey NEO family, product id 0x0110 at most
the legacy threshold) with serial 12345678, slot 1 configuration-valid,
whose probe would report WouldBlock were it ever issued. -/
def neoDevice : Device :=
  { serial := 12345678
    vid := YUBICO_VID
    pid := 0x0110
    touchLevel := 1
    versionMajor := 3
    exchange := fun _ _ _ => { ok := false, errno := YK_EWOULDBLOCK, resp := [] } }

/-- Concrete environment with only `neoDevice` attached. -/
def envC5 : Env := oneKeyEnv neoDevice [] 0x5a "usb detail"

/-- C5 counterexample: for the legacy device of the claim's scenario the
inventory has exactly one entry for (12345678, 1), but its label is the
legacy display, which does not contain the string Press. -/
theorem legacy_press_label_counterexample :
    (findValidKeys envC5 true none).keyMap
      = [((12345678, 1), "Unknown [12345678] - Slot 1")] ∧
    containsSub "Press".toList "Unknown [12345678] - Slot 1".toList = false := by
  constructor
  · decide
  · decide

/-- C5 (amended): for a legacy device (product id at or below the
threshold), enumeration never issues a hardware exchange, and every
configuration-valid slot is listed unconditionally with the legacy label,
which names device, serial and slot but carries no interaction marker. -/
theorem legacy_slots_no_probe (pidNames : List (Nat × String)) (rnd : Nat)
    (usb : String) (d : Device) (prevErr : Option ErrMsg)
    (hpid : d.pid ≤ NEO_OTP_U2F_CCID_PID) (hser : d.serial ≠ 0) :
    ((findValidKeys (oneKeyEnv d pidNames rnd usb) true prevErr).keyMap
      = (if d.touchLevel &&& CONFIG1_VALID = 0 then []
          else [((d.serial, 1), legacyDisplay (oneKeyEnv d pidNames rnd usb) d 1)])
        ++ (if d.touchLevel &&& CONFIG2_VALID = 0 then []
          else [((d.serial, (2 : Int)), legacyDisplay (oneKeyEnv d pidNames rnd usb) d 2)])) ∧
    (∀ cmd mb payload, Event.exchanged cmd mb payload ∉
      (findValidKeys (oneKeyEnv d pidNames rnd usb) true prevErr).events) := by
  by_cases h1 : d.touchLevel &&& CONFIG1_VALID = 0 <;>
    by_cases h2 : d.touchLevel &&& CONFIG2_VALID = 0
  all_goals rw [CONFIG1_VALID] at h1
  all_goals rw [CONFIG2_VALID] at h2
  all_goals simp only [Nat.and_one_is_mod] at h1
  all_goals refine ⟨?_, ?_⟩
  all_goals
    simp [findValidKeys, findValidKeysAux, oneKeyEnv, deviceSlots, slotListing,
      slotConfig, keyMapInsertAll, keyMapInsert, hpid, hser, h1, h2, MAX_KEYS,
      CONFIG1_VALID, CONFIG2_VALID]

/-- Witness for C5 (amended) at the claim's scenario device. -/
theorem legacy_slots_no_probe_witness :
    (findValidKeys envC5 true none).keyMap
      = [((12345678, 1), legacyDisplay envC5 neoDevice 1)] ∧
    (∀ cmd mb payload, Event.exchanged cmd mb payload ∉
      (findValidKeys envC5 true none).events) := by
  have h := legacy_slots_no_probe [] 0x5a "usb detail" neoDevice none
    (by decide) (by decide)
  exact ⟨h.1.trans (by decide), h.2⟩

/-- Key shape: whenever a slot listing contributes an entry, its key is the
(serial, slot) pair of that device and slot. -/
theorem slotListing_key (env : Env) (d : Device) (slot : Int) :
    ∀ e, (slotListing env d slot).fst = some e → e.fst = (d.serial, slot) := by
  intro e he
  simp only [slotListing] at he
  split at he
  · exact absurd he (by simp)
  · split at he
    · rw [← Option.some.inj he]
    · split at he
      · rw [← Option.some.inj he]
      · exact absurd he (by simp)
      · exact absurd he (by simp)

/-- Inserting one entry into the empty map yields the singleton. -/
theorem keyMapInsert_nil (e : (Nat × Int) × String) :
    keyMapInsert [] e.fst e.snd = [e] := by
  simp [keyMapInsert]

/-- Inserting an entry with a fresh key appends it. -/
theorem keyMapInsert_single_ne (e1 e2 : (Nat × Int) × String)
    (hne : e1.fst ≠ e2.fst) :
    keyMapInsert [e1] e2.fst e2.snd = [e1, e2] := by
  simp [keyMapInsert, hne]

/-- Membership in the map built from the two optional slot entries of one
device, when the first option carries the key of interest and the second a
different key: the key is present exactly when the first option is some. -/
theorem mem_keyMapInsertAll_pair (k : Nat × Int)
    (o1 o2 : Option ((Nat × Int) × String))
    (h1 : ∀ e, o1 = some e → e.fst = k)
    (h2 : ∀ e, o2 = some e → e.fst ≠ k) :
    ((∃ v, (k, v) ∈ keyMapInsertAll [] (o1.toList ++ o2.toList)) ↔ o1 ≠ none) := by
  cases o1 with
  | none =>
    cases o2 with
    | none =>
      simp [keyMapInsertAll]
    | some e2 =>
      have hne := h2 e2 rfl
      have hl : keyMapInsertAll []
          ((none : Option ((Nat × Int) × String)).toList ++ (some e2).toList)
            = [e2] := by
        simp [keyMapInsertAll, keyMapInsert]
      rw [hl]
      constructor
      · rintro ⟨v, hv⟩
        simp only [List.mem_singleton] at hv
        exact absurd (congrArg Prod.fst hv).symm hne
      · intro h
        exact absurd rfl h
  | some e1 =>
    have hk1 : e1.fst = k := h1 e1 rfl
    constructor
    · intro _
      simp
    · intro _
      refine ⟨e1.snd, ?_⟩
      cases o2 with
      | none =>
        have hl : keyMapInsertAll []
            ((some e1).toList ++ (none : Option ((Nat × Int) × String)).toList)
              = [e1] := by
          simp [keyMapInsertAll, keyMapInsert]
        rw [hl, ← hk1]
        simp
      | some e2 =>
        have hne := h2 e2 rfl
        have hneK : e1.fst ≠ e2.fst := fun hh => hne (hh.symm.trans hk1)
        have hl : keyMapInsertAll [] ((some e1).toList ++ (some e2).toList)
            = [e1, e2] := by
          simp only [Option.toList_some, List.singleton_append, keyMapInsertAll,
            List.foldl_cons, List.foldl_nil]
          rw [keyMapInsert_nil, keyMapInsert_single_ne e1 e2 hneK]
        rw [hl, ← hk1]
        simp

/-- Mirror of the membership lemma with the key of interest carried by the
second option. -/
theorem mem_keyMapInsertAll_pair2 (k : Nat × Int)
    (o1 o2 : Option ((Nat × Int) × String))
    (h1 : ∀ e, o1 = some e → e.fst ≠ k)
    (h2 : ∀ e, o2 = some e → e.fst = k) :
    ((∃ v, (k, v) ∈ keyMapInsertAll [] (o1.toList ++ o2.toList)) ↔ o2 ≠ none) := by
  cases o2 with
  | none =>
    cases o1 with
    | none =>
      simp [keyMapInsertAll]
    | some e1 =>
      have hne := h1 e1 rfl
      have hl : keyMapInsertAll []
          ((some e1).toList ++ (none : Option ((Nat × Int) × String)).toList)
            = [e1] := by
        simp [keyMapInsertAll, keyMapInsert]
      rw [hl]
      constructor
      · rintro ⟨v, hv⟩
        simp only [List.mem_singleton] at hv
        exact absurd (congrArg Prod.fst hv).symm hne
      · intro h
        exact absurd rfl h
  | some e2 =>
    have hk2 : e2.fst = k := h2 e2 rfl
    constructor
    · intro _
      simp
    · intro _
      refine ⟨e2.snd, ?_⟩
      cases o1 with
      | none =>
        have hl : keyMapInsertAll []
            ((none : Option ((Nat × Int) × String)).toList ++ (some e2).toList)
              = [e2] := by
          simp [keyMapInsertAll, keyMapInsert]
        rw [hl, ← hk2]
        simp
      | some e1 =>
        have hne := h1 e1 rfl
        have hneK : e1.fst ≠ e2.fst := fun hh => hne (hh.trans hk2)
        have hl : keyMapInsertAll [] ((some e1).toList ++ (some e2).toList)
            = [e1, e2] := by
          simp only [Option.toList_some, List.singleton_append, keyMapInsertAll,
            List.foldl_cons, List.foldl_nil]
          rw [keyMapInsert_nil, keyMapInsert_single_ne e1 e2 hneK]
        rw [hl, ← hk2]
        simp

/-- Inventory of an environment whose index 0 opens device d and whose
index 1 reports no more devices: exactly the two optional slot entries of
d, inserted in slot order. -/
theorem findValidKeys_single (env : Env) (d : Device) (prevErr : Option ErrMsg)
    (h0 : env.openKey 0 = OpenAttempt.opened d)
    (h1 : env.openKey 1 = OpenAttempt.failed YK_ENOKEY)
    (hser : d.serial ≠ 0) :
    (findValidKeys env true prevErr).keyMap
      = keyMapInsertAll [] ((slotListing env d 1).fst.toList
          ++ (slotListing env d 2).fst.toList) := by
  simp [findValidKeys, findValidKeysAux, h0, h1, hser, MAX_KEYS, deviceSlots]

/-- Listing decision of a configuration-valid slot of a non-legacy device,
as a function of the probe outcome. -/
theorem slotListing_nonlegacy (env : Env) (d : Device) (slot : Int)
    (hpid : NEO_OTP_U2F_CCID_PID < d.pid)
    (hcfg : d.touchLevel &&& slotConfig slot ≠ 0) :
    (slotListing env d slot).fst
      = if (performChallenge env d slot false [env.rnd]).result = ChallengeResult.YCR_ERROR
        then none
        else some ((d.serial, slot), probedDisplay env d slot
          (decide ((performChallenge env d slot false [env.rnd]).result
            = ChallengeResult.YCR_WOULDBLOCK))) := by
  have hnle : ¬ d.pid ≤ NEO_OTP_U2F_CCID_PID := Nat.not_le.mpr hpid
  simp only [slotListing, if_neg hcfg, if_neg hnle]
  cases hres : (performChallenge env d slot false [env.rnd]).result with
  | YCR_SUCCESS => simp [performTestChallenge, hres]
  | YCR_ERROR => simp [performTestChallenge, hres]
  | YCR_WOULDBLOCK => simp [performTestChallenge, hres]

/-- C6: for a single attached non-legacy device and a configuration-valid
slot, the slot appears in the inventory exactly when the non-blocking test
probe ends in Success or WouldBlock; the probe reports outBlocks false on
Success and true on WouldBlock; and a probe Error leaves the slot
unlisted. -/
theorem nonlegacy_slot_listing (env : Env) (pidNames : List (Nat × String))
    (rnd : Nat) (usb : String) (d : Device) (slot : Int) (prevErr : Option ErrMsg)
    (henv : env = oneKeyEnv d pidNames rnd usb)
    (hpid : NEO_OTP_U2F_CCID_PID < d.pid) (hser : d.serial ≠ 0)
    (hslot : slot = 1 ∨ slot = 2)
    (hcfg : d.touchLevel &&& slotConfig slot ≠ 0) :
    ((∃ v, ((d.serial, slot), v) ∈ (findValidKeys env true prevErr).keyMap)
      ↔ ((performChallenge env d slot false [env.rnd]).result = ChallengeResult.YCR_SUCCESS ∨
          (performChallenge env d slot false [env.rnd]).result = ChallengeResult.YCR_WOULDBLOCK)) ∧
    ((performChallenge env d slot false [env.rnd]).result = ChallengeResult.YCR_SUCCESS →
      (performTestChallenge env d slot).snd.fst = some false) ∧
    ((performChallenge env d slot false [env.rnd]).result = ChallengeResult.YCR_WOULDBLOCK →
      (performTestChallenge env d slot).snd.fst = some true) ∧
    ((performChallenge env d slot false [env.rnd]).result = ChallengeResult.YCR_ERROR →
      ¬ ∃ v, ((d.serial, slot), v) ∈ (findValidKeys env true prevErr).keyMap) := by
  have h0 : env.openKey 0 = OpenAttempt.opened d := by rw [henv]; rfl
  have h1 : env.openKey 1 = OpenAttempt.failed YK_ENOKEY := by rw [henv]; rfl
  have hmap := findValidKeys_single env d prevErr h0 h1 hser
  have hK := slotListing_nonlegacy env d slot hpid hcfg
  rcases hslot with rfl | rfl
  · have hne2 : ∀ e, (slotListing env d 2).fst = some e →
        e.fst ≠ ((d.serial, (1 : Int)) : Nat × Int) := by
      intro e he
      rw [slotListing_key env d 2 e he]
      simp
    have hiff := mem_keyMapInsertAll_pair (d.serial, 1)
      (slotListing env d 1).fst (slotListing env d 2).fst
      (slotListing_key env d 1) hne2
    refine ⟨?_, ?_, ?_, ?_⟩
    · rw [hmap, hiff, hK]
      cases hres : (performChallenge env d 1 false [env.rnd]).result <;> simp [hres]
    · intro hres
      simp [performTestChallenge, hres]
    · intro hres
      simp [performTestChallenge, hres]
    · intro hres
      rw [hmap, hiff, hK]
      simp [hres]
  · have hne1 : ∀ e, (slotListing env d 1).fst = some e →
        e.fst ≠ ((d.serial, (2 : Int)) : Nat × Int) := by
      intro e he
      rw [slotListing_key env d 1 e he]
      simp
    have hiff := mem_keyMapInsertAll_pair2 (d.serial, 2)
      (slotListing env d 1).fst (slotListing env d 2).fst
      hne1 (slotListing_key env d 2)
    refine ⟨?_, ?_, ?_, ?_⟩
    · rw [hmap, hiff, hK]
      cases hres : (performChallenge env d 2 false [env.rnd]).result <;> simp [hres]
    · intro hres
      simp [performTestChallenge, hres]
    · intro hres
      simp [performTestChallenge, hres]
    · intro hres
      rw [hmap, hiff, hK]
      simp [hres]

/-- Concrete non-legacy device (YK4 family) whose slot requires touch: a
non-blocking exchange reports would-block, a blocking one succeeds. -/
def touchDevice : Device :=
  { serial := 555
    vid := YUBICO_VID
    pid := 0x0403
    touchLevel := 3
    versionMajor := 4
    exchange := fun _ mayBlock _ =>
      if mayBlock then { ok := true, errno := 0, resp := List.replicate 64 2 }
      else { ok := false, errno := YK_EWOULDBLOCK, resp := [] } }

/-- Concrete environment with only `touchDevice` attached. -/
def touchEnv : Env := oneKeyEnv touchDevice [] 7 "usb detail"

/-- Witness for C6: the touch-requiring slot is listed and the probe
reports that it would block. -/
theorem nonlegacy_slot_listing_witness :
    (∃ v, ((555, (1 : Int)), v) ∈ (findValidKeys touchEnv true none).keyMap) ∧
    (performTestChallenge touchEnv touchDevice 1).snd.fst = some true := by
  have h := nonlegacy_slot_listing touchEnv [] 7 "usb detail" touchDevice 1 none
    rfl (by decide) (by decide) (Or.inl rfl) (by decide)
  have hres : (performChallenge touchEnv touchDevice 1 false [touchEnv.rnd]).result
      = ChallengeResult.YCR_WOULDBLOCK := by decide
  exact ⟨h.1.mpr (Or.inr hres), h.2.2.1 hres⟩
